import Mathlib

/-!
Shallow embedding of the gomcp bridge (Go) for specification checking.

The definitions below are translated from the repository source:
* `bridge/mcpclient.go` — the MCP provider protocol client
  (`readResponses`, `sendRequest`, `CallTool`, `Close`);
* `bridge/bridge.go` and its multi-server iteration — the orchestrator
  (`ProcessMessage`, `handleToolCalls`, `handleDatabaseTool`,
   `sanitizeToolName`, `isRetryableError`, tool registration);
* `tools/database.go` — the built-in database tool
  (`validateQuery`, `Execute` and its row scan loop).

Go `error` values are modelled by the inductive `GoErr`; `fmt.Errorf`
wrapping with `%w` becomes `GoErr.wrapped`.  Go maps used by the bridge
are modelled as association lists with Go assignment (overwrite) and
lookup semantics.
-/

namespace Gomcp

/-- Model of Go `error` values used by the bridge.  `net t` is a
`net.Error` whose `Timeout()` method returns `t`; `wrapped` is a
`fmt.Errorf("...: %w", err)` wrapper (unwrapped by `errors.As`);
`bridge` is a `types.BridgeError` with operation and message. -/
inductive GoErr where
  | simple (msg : String)
  | wrapped (msg : String) (cause : GoErr)
  | net (timeout : Bool)
  | bridge (op : String) (msg : String) (cause : GoErr)
deriving DecidableEq

deriving instance DecidableEq for Except

/-- Go map lookup `m[k]` on an association-list model of a map. -/
def goLookup {α : Type} : List (String × α) → String → Option α
  | [], _ => none
  | (k', v) :: rest, k => if k' = k then some v else goLookup rest k

/-- Go map assignment `m[k] = v`: overwrite the existing entry or add one. -/
def goMapInsert {α : Type} : List (String × α) → String → α → List (String × α)
  | [], k, v => [(k, v)]
  | (k', v') :: rest, k, v =>
    if k' = k then (k, v) :: rest else (k', v') :: goMapInsert rest k v

/-- Whether the first character list starts the second. -/
def startsWithChars : List Char → List Char → Bool
  | [], _ => true
  | _ :: _, [] => false
  | a :: as, b :: bs => a = b && startsWithChars as bs

/-- Whether the first character list occurs contiguously in the second. -/
def containsChars (sub : List Char) : List Char → Bool
  | [] => sub.isEmpty
  | c :: cs => startsWithChars sub (c :: cs) || containsChars sub cs

/-- Go `strings.Contains(s, sub)`. -/
def goContains (s sub : String) : Bool :=
  containsChars sub.data s.data

/-- Go `strings.ToLower` (rune-wise lowering). -/
def goToLower (s : String) : String :=
  ⟨s.data.map Char.toLower⟩

/-- Go `strings.ToUpper` (rune-wise raising). -/
def goToUpper (s : String) : String :=
  ⟨s.data.map Char.toUpper⟩

/-- Go `strings.TrimSpace`: drop leading and trailing whitespace. -/
def goTrimSpace (s : String) : String :=
  ⟨((s.data.dropWhile Char.isWhitespace).reverse.dropWhile Char.isWhitespace).reverse⟩

/-- Replace every non-overlapping occurrence of `pat` (non-empty) by
`rep`, scanning left to right, as Go `strings.ReplaceAll`.  The `fuel`
argument only bounds the recursion; instantiated with the input's
length it never runs out, since every step consumes at least one
character. -/
def replaceAllAux (pat rep : List Char) : Nat → List Char → List Char
  | _, [] => []
  | 0, l => l
  | fuel + 1, c :: cs =>
    if pat ≠ [] ∧ startsWithChars pat (c :: cs) then
      rep ++ replaceAllAux pat rep fuel (cs.drop (pat.length - 1))
    else
      c :: replaceAllAux pat rep fuel cs

/-- Go `strings.ReplaceAll(s, pat, rep)`. -/
def replaceAll (s pat rep : String) : String :=
  ⟨replaceAllAux pat.data rep.data s.data.length s.data⟩

/-! ## Line classification in the background reader

From `MCPClient.readResponses` (bridge/mcpclient.go:139-182): each line of
the provider's stdout is JSON-decoded into a `map[string]interface{}`;
lines that fail to decode are skipped; a message whose `method` field is
the string `"notify"` is treated as a notification and skipped (only
logged); otherwise the message is forwarded on the single-slot response
channel exactly when it has a `"result"` key. -/

/-- JSON values as decoded by `encoding/json` into `interface{}`. -/
inductive JsonVal where
  | str (s : String)
  | num (n : Int)
  | boolean (b : Bool)
  | null
  | arr (items : List JsonVal)
  | obj (fields : List (String × JsonVal))

/-- The result of `json.Unmarshal` on one line: either a decode failure
or a decoded JSON object (a field map). -/
inductive ParsedLine where
  | notJson
  | json (fields : List (String × JsonVal))

/-- What `readResponses` does with one line: drop it, skip it as a
notification (at most logging it), or deliver it on `respChan`. -/
inductive LineAction where
  | discard
  | notificationSkip
  | deliver
deriving DecidableEq

/-- The `"result"` check at mcpclient.go:177: forward iff the message has
a `result` key. -/
def resultCheck (fields : List (String × JsonVal)) : LineAction :=
  if (goLookup fields "result").isSome then .deliver else .discard

/-- Classification of one stdout line by `MCPClient.readResponses`
(mcpclient.go:156-181). -/
def processLine : ParsedLine → LineAction
  | .notJson => .discard
  | .json fields =>
    match goLookup fields "method" with
    | some (.str m) => if m = "notify" then .notificationSkip else resultCheck fields
    | some _ => resultCheck fields
    | none => resultCheck fields

/-! ## Tool-name sanitization and the tool registry -/

/-- One character of `sanitizeToolName`: `'-'` and `' '` become `"_"`,
any other rune is kept (bridge/bridge.go:341-352). -/
def sanitizeStep (r : Char) : List Char :=
  if r = '-' ∨ r = ' ' then ['_'] else [r]

/-- The accumulator loop of `sanitizeToolName`: `sanitized += ...` per rune. -/
def sanitizeAux : List Char → List Char → List Char
  | acc, [] => acc
  | acc, r :: rs => sanitizeAux (acc ++ sanitizeStep r) rs

/-- `sanitizeToolName` from bridge/bridge.go:341-352 (same function in the
multi-server bridge and the llm package). -/
def sanitizeToolName (name : String) : String :=
  ⟨sanitizeAux [] name.data⟩

/-- Tool registration from the multi-server `Bridge.Initialize`:
for each discovered tool,
`toolMap[sanitizeToolName(tool.Name)] = serverName + "/" + tool.Name`. -/
def registerServerTools (serverName : String) (toolNames : List String)
    (toolMap : List (String × String)) : List (String × String) :=
  toolNames.foldl
    (fun tm toolName =>
      goMapInsert tm (sanitizeToolName toolName) (serverName ++ "/" ++ toolName))
    toolMap

/-- Split a character list at the first `'/'`, if any. -/
def splitFirstSlash : List Char → Option (List Char × List Char)
  | [] => none
  | c :: cs =>
    if c = '/' then some ([], cs)
    else
      match splitFirstSlash cs with
      | none => none
      | some (a, b) => some (c :: a, b)

/-- Go `strings.SplitN(s, "/", 2)`. -/
def splitN2Slash (s : String) : List String :=
  match splitFirstSlash s.data with
  | none => [s]
  | some (a, b) => [⟨a⟩, ⟨b⟩]

/-- Resolution of a registry value back to (server name, native tool name),
from `handleToolCalls` (multi-server bridge): `strings.SplitN(mcpName, "/", 2)`
must yield exactly two parts. -/
def resolveServerTool (mcpName : String) : Except GoErr (String × String) :=
  match splitN2Slash mcpName with
  | [serverName, toolName] => .ok (serverName, toolName)
  | _ => .error (.simple ("invalid tool mapping: " ++ mcpName))

/-! ## Model responses, retry loop and `ProcessMessage` -/

/-- A JSON-decoded tool-call argument value.  Go decodes JSON numbers to
`float64`; `num n` models a numeric argument holding the integral value
`n`, which `fmt.Sprintf("%v", ...)` renders as its decimal digits. -/
inductive ArgVal where
  | str (s : String)
  | num (n : Int)
  | boolean (b : Bool)
deriving DecidableEq

/-- One tool call requested by the model (`types.ToolCall`): `id`,
`Function.Name` (sanitized) and `Function.Arguments`. -/
structure ToolCall where
  id : String
  name : String
  args : List (String × ArgVal)
deriving DecidableEq

/-- `types.LLMResponse`: the model's content plus requested tool calls. -/
structure LLMResponse where
  content : String
  toolCalls : List ToolCall
deriving DecidableEq

/-- One entry of the tool-results slice built by `handleToolCalls`:
`tool_call_id` and formatted `output`. -/
structure ToolResult where
  id : String
  output : String
deriving DecidableEq

/-- `isRetryableError` (bridge/bridge.go:367-380): `errors.As` digs through
`fmt.Errorf` wrappers looking for a `net.Error`, and the error is
retryable iff its `Timeout()` reports true. -/
def isRetryableError : GoErr → Bool
  | .net t => t
  | .wrapped _ e => isRetryableError e
  | _ => false

/-- Outcome of the retry loop in `ProcessMessage`: a successful
generation, a non-retryable error returned immediately, or retries
exhausted (the caller wraps the last error as a BridgeError).  Each
carries the list of backoff sleeps performed, in seconds. -/
inductive RetryResult where
  | success (resp : LLMResponse) (sleeps : List Nat)
  | nonRetryable (e : GoErr) (sleeps : List Nat)
  | exhausted (e : GoErr) (sleeps : List Nat)
deriving DecidableEq

/-- The retry loop of `ProcessMessage` (bridge/bridge.go:142-164):
`for attempts := 0; attempts < 3; attempts++`, generating, returning a
non-retryable error immediately, and otherwise sleeping `backoff` and
doubling it.  `gen` is the generation function indexed by attempt number;
`remaining` counts loop iterations left. -/
def retryLoop (gen : Nat → Except GoErr LLMResponse) :
    Nat → Nat → Nat → List Nat → RetryResult
  | 0, _, _, sleeps => .exhausted (.simple "no attempts") sleeps
  | remaining + 1, attempt, backoff, sleeps =>
    match gen attempt with
    | .ok r => .success r sleeps
    | .error e =>
      if isRetryableError e then
        match remaining with
        | 0 => .exhausted e (sleeps ++ [backoff])
        | remaining' + 1 =>
          retryLoop gen (remaining' + 1) (attempt + 1) (backoff * 2)
            (sleeps ++ [backoff])
      else .nonRetryable e sleeps

/-- Tag cleanup at the end of `ProcessMessage` (bridge/bridge.go:194-196). -/
def cleanContent (s : String) : String :=
  goTrimSpace (replaceAll (replaceAll s "<|im_start|>" "") "<|im_end|>" "")

/-- The observable outcome of one `ProcessMessage` call: its return value
and the backoff sleeps it performed. -/
structure PMOutcome where
  result : Except GoErr String
  sleeps : List Nat
deriving DecidableEq

/-- `Bridge.ProcessMessage` (bridge/bridge.go:131-199; identical control
flow in the multi-server bridge): retry-with-backoff around generation;
on success, if the response carries tool calls they are dispatched once
through `handle` and the first tool result's output is returned; only
when there are no tool calls (or no tool results) is the model's content
returned, with chat tags stripped and trimmed. -/
def processMessage (gen : Nat → Except GoErr LLMResponse)
    (handle : List ToolCall → Except GoErr (List ToolResult)) : PMOutcome :=
  match retryLoop gen 3 0 1 [] with
  | .nonRetryable e sleeps => ⟨.error e, sleeps⟩
  | .exhausted e sleeps =>
    ⟨.error (.bridge "process_message" "failed after retry attempts" e), sleeps⟩
  | .success resp sleeps =>
    match resp.toolCalls with
    | [] => ⟨.ok (cleanContent resp.content), sleeps⟩
    | _ :: _ =>
      match handle resp.toolCalls with
      | .error e =>
        ⟨.error (.bridge "handle_tools" "tool execution failed" e), sleeps⟩
      | .ok [] => ⟨.ok (cleanContent resp.content), sleeps⟩
      | .ok (r :: _) => ⟨.ok r.output, sleeps⟩

/-! ## The built-in database tool (tools/database.go)

`DatabaseTool.Execute` extracts the `query` parameter, validates it with
`validateQuery`, runs it through `database/sql`, and scans each row into
a `map[string]interface{}`, skipping NULL columns and converting
`[]byte` values to strings.  The SQL engine itself is the external
`go-sqlite3` driver; it is a parameter (`engine`) of the embedding,
returning the column names and the raw values of each row. -/

/-- A raw column value as scanned from `database/sql`: SQL NULL, a byte
slice (modelled by the string its bytes spell), an integer, or text that
the driver already delivered as a Go string. -/
inductive DBVal where
  | null
  | bytes (b : String)
  | int (n : Int)
  | text (s : String)
deriving DecidableEq

/-- A value stored in the scanned row map. -/
inductive RowVal where
  | str (s : String)
  | int (n : Int)
deriving DecidableEq

/-- The conversion applied by the row scan loop to a non-NULL value:
`[]byte` becomes `string(b)`, everything else is stored unchanged
(tools/database.go:186-194).  The `.null` case is unreachable: the loop
only converts values that passed the nil check. -/
def convDBVal : DBVal → RowVal
  | .null => .str ""
  | .bytes b => .str b
  | .int n => .int n
  | .text s => .str s

/-- The body of the row scan loop: for each column with its scanned
value, skip SQL NULLs and store the converted value in the row map. -/
def scanRowAux : List (String × RowVal) → List (String × DBVal) →
    List (String × RowVal)
  | row, [] => row
  | row, (col, v) :: rest =>
    if v = .null then scanRowAux row rest
    else scanRowAux (goMapInsert row col (convDBVal v)) rest

/-- Scan one result row (tools/database.go:179-197): the row map built
from the column/value pairs, omitting NULL columns. -/
def scanRow (pairs : List (String × DBVal)) : List (String × RowVal) :=
  scanRowAux [] pairs

/-- `DatabaseTool.validateQuery` (tools/database.go:204-224): lowercase
the query; reject it if it contains a dangerous keyword; accept it only
if it contains the (lowercased) name of some known table. -/
def validateQuery (schemas : List String) (query : String) : Except GoErr Unit :=
  let lowerQuery := goToLower query
  if goContains lowerQuery "drop" || goContains lowerQuery "alter" ||
      goContains lowerQuery "delete" || goContains lowerQuery "update" ||
      goContains lowerQuery "insert" then
    .error (.simple "only SELECT queries are allowed")
  else if schemas.any (fun t => goContains lowerQuery (goToLower t)) then
    .ok ()
  else
    .error (.simple "query must reference a valid table")

/-- `DatabaseTool.Execute` (tools/database.go:145-201).  `engine` models
the external SQL engine: for a query it yields the column names and the
raw values of each row (or a query error). -/
def dbExecute (schemas : List String)
    (engine : String → Except GoErr (List String × List (List DBVal)))
    (params : List (String × ArgVal)) :
    Except GoErr (List (List (String × RowVal))) :=
  match goLookup params "query" with
  | some (.str query) =>
    match validateQuery schemas query with
    | .error e => .error (.wrapped "invalid query" e)
    | .ok () =>
      match engine query with
      | .error e => .error (.wrapped "failed to execute query" e)
      | .ok (columns, rawRows) =>
        .ok (rawRows.map (fun vals => scanRow (columns.zip vals)))
  | _ => .error (.simple "query parameter is required")

/-! ## Formatting of database results (multi-server bridge) -/

/-- `fmt.Sprintf("%v", val)` for a row value. -/
def renderRowVal : RowVal → String
  | .str s => s
  | .int n => toString n

/-- Left-justified padding to a column width, as `fmt.Sprintf("%-*v", w, v)`. -/
def padRight (s : String) (w : Nat) : String :=
  s ++ ⟨List.replicate (w - s.length) ' '⟩

/-- Byte-wise (here: character-wise) ≤ on strings, as used by
`sort.Strings`. -/
def strLeb : List Char → List Char → Bool
  | [], _ => true
  | _ :: _, [] => false
  | a :: as, b :: bs => if a = b then strLeb as bs else decide (a < b)

/-- Insertion step of the column sort. -/
def insertSorted (x : String) : List String → List String
  | [] => [x]
  | y :: ys => if strLeb x.data y.data then x :: y :: ys else y :: insertSorted x ys

/-- `sort.Strings` on the collected column names. -/
def sortStrings (l : List String) : List String :=
  l.foldr insertSorted []

/-- `Bridge.formatDatabaseResult` (multi-server bridge): an empty result
set renders as the empty string; otherwise all distinct column names are
collected over every row and sorted, widths computed, and a header,
separator and data lines emitted; a column a row lacks prints as blanks. -/
def formatDatabaseResult (rows : List (List (String × RowVal))) : String :=
  match rows with
  | [] => ""
  | _ :: _ =>
    let columns := sortStrings ((rows.flatMap (fun r => r.map Prod.fst)).eraseDups)
    let width := fun (col : String) =>
      rows.foldl
        (fun w row =>
          match goLookup row col with
          | some v => max w (renderRowVal v).length
          | none => w)
        col.length
    let header :=
      String.join (columns.map (fun col => padRight (goToUpper col) (width col) ++ "  ")) ++ "\n"
    let sep :=
      String.join (columns.map (fun col => (⟨List.replicate (width col) '-'⟩ : String) ++ "  ")) ++ "\n"
    let dataRows :=
      String.join (rows.map (fun row =>
        String.join (columns.map (fun col =>
          match goLookup row col with
          | some v => padRight (renderRowVal v) (width col) ++ "  "
          | none => padRight "" (width col) ++ "  ")) ++ "\n"))
    header ++ sep ++ dataRows

/-- `Bridge.handleDatabaseTool` (multi-server bridge): extract the
`query` argument, run `DatabaseTool.Execute`, wrap failures, and format
the rows. -/
def handleDatabaseTool (schemas : List String)
    (engine : String → Except GoErr (List String × List (List DBVal)))
    (call : ToolCall) : Except GoErr ToolResult :=
  match goLookup call.args "query" with
  | some (.str query) =>
    match dbExecute schemas engine [("query", .str query)] with
    | .error e => .error (.wrapped "database query failed" e)
    | .ok rows => .ok ⟨call.id, formatDatabaseResult rows⟩
  | _ => .error (.simple "invalid query argument")

/-! ## Provider dispatch (`handleToolCalls`, multi-server bridge) -/

/-- A provider invocation observed on the wire: which server, which
native tool name, and with which (converted) arguments.  Used to state
which `client.CallTool` calls a dispatch performs. -/
structure ProviderCall where
  server : String
  tool : String
  args : List (String × ArgVal)
deriving DecidableEq

/-- Argument coercion in `handleToolCalls`: a numeric value destined for
the `limit` or `interval` field is rendered as a string. -/
def convertArgs (args : List (String × ArgVal)) : List (String × ArgVal) :=
  args.map (fun p =>
    match p.2 with
    | .num n =>
      if p.1 = "limit" ∨ p.1 = "interval" then (p.1, .str (toString n)) else (p.1, .num n)
    | _ => p)

/-- `Bridge.formatToolResult` (multi-server bridge) on the text items the
protocol client decodes from a call response: each item followed by a
newline, the whole trimmed; no items yield the empty string. -/
def formatToolResult (texts : List String) : String :=
  goTrimSpace (String.join (texts.map (fun t => t ++ "\n")))

/-- The orchestrator state consulted by `handleToolCalls`: the sanitized
tool-name registry, the provider sessions by name (each modelled by the
function from native tool name and arguments to the decoded text items
of its reply), and the built-in database tool's schema and engine. -/
structure BridgeEnv where
  toolMap : List (String × String)
  servers : List (String × (String → List (String × ArgVal) → Except GoErr (List String)))
  schemas : List String
  engine : String → Except GoErr (List String × List (List DBVal))

/-- One iteration of the `handleToolCalls` loop body (multi-server
bridge): resolve the call through the registry, execute the built-in
database tool directly or forward to the owning provider.  Returns the
call's outcome together with the provider invocations performed (empty
when the call never reached a provider). -/
def dispatchToolCall (env : BridgeEnv) (call : ToolCall) :
    Except GoErr ToolResult × List ProviderCall :=
  match goLookup env.toolMap call.name with
  | none => (.error (.simple ("unknown tool: " ++ call.name)), [])
  | some mcpName =>
    if mcpName = "query_database" then
      (handleDatabaseTool env.schemas env.engine call, [])
    else
      match splitN2Slash mcpName with
      | [serverName, toolName] =>
        match goLookup env.servers serverName with
        | none => (.error (.simple ("unknown MCP server: " ++ serverName)), [])
        | some srv =>
          let convertedArgs := convertArgs call.args
          match srv toolName convertedArgs with
          | .error e =>
            (.error (.wrapped "tool execution failed" e),
             [⟨serverName, toolName, convertedArgs⟩])
          | .ok texts =>
            (.ok ⟨call.id, formatToolResult texts⟩,
             [⟨serverName, toolName, convertedArgs⟩])
      | _ => (.error (.simple ("invalid tool mapping: " ++ mcpName)), [])

/-- The loop of `handleToolCalls` (multi-server bridge): dispatch the
calls in order, appending each result, and fail fast on the first error. -/
def handleToolCallsAux (env : BridgeEnv) :
    List ToolCall → List ToolResult → List ProviderCall →
    Except GoErr (List ToolResult) × List ProviderCall
  | [], results, trace => (.ok results, trace)
  | call :: rest, results, trace =>
    match dispatchToolCall env call with
    | (.error e, pcs) => (.error e, trace ++ pcs)
    | (.ok r, pcs) => handleToolCallsAux env rest (results ++ [r]) (trace ++ pcs)

/-- `Bridge.handleToolCalls` (multi-server bridge), instrumented with the
provider invocations it performs. -/
def handleToolCalls (env : BridgeEnv) (calls : List ToolCall) :
    Except GoErr (List ToolResult) × List ProviderCall :=
  handleToolCallsAux env calls [] []

/-! ## Session teardown (`MCPClient.Close`, mcpclient.go:375-400) -/

/-- The four teardown steps of `MCPClient.Close`, in order. -/
inductive CloseStep where
  | closeStdin
  | closeStdout
  | killProcess
  | waitProcess
deriving DecidableEq

/-- The outcomes the environment offers to each teardown step:
`none` means the step would succeed, `some e` that it fails with `e`. -/
structure CloseEnv where
  stdinClose : Option GoErr
  stdoutClose : Option GoErr
  kill : Option GoErr
  wait : Option GoErr
deriving DecidableEq

/-- `MCPClient.Close`: close stdin, close stdout, kill the process, wait
for it — returning the first failure immediately.  The second component
lists the steps actually attempted. -/
def closeClient (env : CloseEnv) : Except GoErr Unit × List CloseStep :=
  match env.stdinClose with
  | some e => (.error (.wrapped "failed to close stdin" e), [.closeStdin])
  | none =>
    match env.stdoutClose with
    | some e => (.error (.wrapped "failed to close stdout" e), [.closeStdin, .closeStdout])
    | none =>
      match env.kill with
      | some e =>
        (.error (.wrapped "failed to kill process" e),
         [.closeStdin, .closeStdout, .killProcess])
      | none =>
        match env.wait with
        | some e =>
          (.error (.wrapped "failed to wait for process" e),
           [.closeStdin, .closeStdout, .killProcess, .waitProcess])
        | none =>
          (.ok (), [.closeStdin, .closeStdout, .killProcess, .waitProcess])

/-! ## Concurrency model of one provider session

Two concurrent callers each execute one request/response operation on a
session (`Initialize`, `ListTools` or `CallTool` all have the same shape,
mcpclient.go:316-373): `sendRequest` acquires `c.mu`, writes the request
line to stdin and releases `c.mu` (mcpclient.go:402-420); then — outside
the mutex — the caller receives on `c.respChan`.  The background reader
forwards the providers' responses, in the order the requests were
written, through the single-slot channel.  The model is a small-step
transition system over interleavings of the two callers and the reader;
requests and responses are numbered in write order, and a caller records
which request it wrote and which response it received. -/

/-- Where one caller stands in its request/response operation. -/
inductive CPhase where
  | idle
  | locked
  | written
  | awaiting
  | done
deriving DecidableEq

/-- One caller: its phase, the index of the request it wrote, and the
index of the response it received. -/
structure ThreadSt where
  phase : CPhase
  reqIdx : Option Nat
  recvIdx : Option Nat
deriving DecidableEq

/-- The session state shared by the two callers and the reader:
`mutexOwner` models `c.mu`, `slot` the single-slot `respChan`,
`written` the count of requests written to stdin, `delivered` the count
of responses the reader has forwarded. -/
structure CState where
  t0 : ThreadSt
  t1 : ThreadSt
  mutexOwner : Option Bool
  slot : Option Nat
  written : Nat
  delivered : Nat
deriving DecidableEq

/-- The atomic events of the interleaving: caller 0 or caller 1 acquires
the mutex, writes its request, releases the mutex, or receives from the
channel; `deliver` is the background reader forwarding the next response. -/
inductive CEvent where
  | lock0
  | lock1
  | write0
  | write1
  | unlock0
  | unlock1
  | deliver
  | recv0
  | recv1
deriving DecidableEq

/-- The initial state: both callers idle, mutex free, channel empty. -/
def cInit : CState :=
  ⟨⟨.idle, none, none⟩, ⟨.idle, none, none⟩, none, none, 0, 0⟩

/-- One step of the interleaving semantics; `none` when the event is not
enabled (the mutex is held, the channel is empty, and so on). -/
def cstep (s : CState) : CEvent → Option CState
  | .lock0 =>
    if s.t0.phase = .idle ∧ s.mutexOwner = none then
      some { s with t0 := { s.t0 with phase := .locked }, mutexOwner := some false }
    else none
  | .lock1 =>
    if s.t1.phase = .idle ∧ s.mutexOwner = none then
      some { s with t1 := { s.t1 with phase := .locked }, mutexOwner := some true }
    else none
  | .write0 =>
    if s.t0.phase = .locked ∧ s.mutexOwner = some false then
      some { s with t0 := { s.t0 with phase := .written, reqIdx := some s.written },
                    written := s.written + 1 }
    else none
  | .write1 =>
    if s.t1.phase = .locked ∧ s.mutexOwner = some true then
      some { s with t1 := { s.t1 with phase := .written, reqIdx := some s.written },
                    written := s.written + 1 }
    else none
  | .unlock0 =>
    if s.t0.phase = .written ∧ s.mutexOwner = some false then
      some { s with t0 := { s.t0 with phase := .awaiting }, mutexOwner := none }
    else none
  | .unlock1 =>
    if s.t1.phase = .written ∧ s.mutexOwner = some true then
      some { s with t1 := { s.t1 with phase := .awaiting }, mutexOwner := none }
    else none
  | .deliver =>
    if s.delivered < s.written ∧ s.slot = none then
      some { s with slot := some s.delivered, delivered := s.delivered + 1 }
    else none
  | .recv0 =>
    match s.slot with
    | some r =>
      if s.t0.phase = .awaiting then
        some { s with t0 := { s.t0 with phase := .done, recvIdx := some r }, slot := none }
      else none
    | none => none
  | .recv1 =>
    match s.slot with
    | some r =>
      if s.t1.phase = .awaiting then
        some { s with t1 := { s.t1 with phase := .done, recvIdx := some r }, slot := none }
      else none
    | none => none

/-- Run a schedule of events from a state; `none` if any event is not
enabled at its turn. -/
def crun : List CEvent → CState → Option CState
  | [], s => some s
  | e :: es, s =>
    match cstep s e with
    | none => none
    | some s' => crun es s'

/-- A caller is inside `sendRequest`'s critical section (between
`c.mu.Lock()` and the deferred unlock). -/
def inSend (th : ThreadSt) : Prop :=
  th.phase = .locked ∨ th.phase = .written

instance (th : ThreadSt) : Decidable (inSend th) := by
  unfold inSend; infer_instance

/-! # Theorems -/

/-! ## C9 — sanitization is idempotent -/

/-- The per-character effect of `sanitizeToolName`. -/
def sanitizeChar (c : Char) : Char :=
  if c = '-' ∨ c = ' ' then '_' else c

theorem sanitizeStep_eq (r : Char) : sanitizeStep r = [sanitizeChar r] := by
  by_cases h : r = '-' ∨ r = ' ' <;> simp [sanitizeStep, sanitizeChar, h]

theorem sanitizeAux_eq (l : List Char) :
    ∀ acc, sanitizeAux acc l = acc ++ l.map sanitizeChar := by
  induction l with
  | nil => intro acc; simp [sanitizeAux]
  | cons r rs ih =>
    intro acc
    simp [sanitizeAux, ih, sanitizeStep_eq]

theorem sanitizeChar_idem (c : Char) : sanitizeChar (sanitizeChar c) = sanitizeChar c := by
  by_cases h : c = '-' ∨ c = ' '
  · simp [sanitizeChar, h]
  · simp [sanitizeChar, h]

/-- C9: tool-name sanitization is idempotent — for every string `x`,
`sanitizeToolName (sanitizeToolName x) = sanitizeToolName x`. -/
theorem sanitizeToolName_idempotent (x : String) :
    sanitizeToolName (sanitizeToolName x) = sanitizeToolName x := by
  unfold sanitizeToolName
  simp only [sanitizeAux_eq, List.nil_append]
  show (⟨((⟨x.data.map sanitizeChar⟩ : String).data).map sanitizeChar⟩ : String)
      = ⟨x.data.map sanitizeChar⟩
  simp only [List.map_map]
  congr 1
  exact List.map_congr_left (fun c _ => sanitizeChar_idem c)

/-- C9 witness: idempotence evaluated at a concrete tool name. -/
theorem sanitizeToolName_idempotent_witness :
    sanitizeToolName (sanitizeToolName "get-ticker price") = sanitizeToolName "get-ticker price" :=
  sanitizeToolName_idempotent "get-ticker price"

/-! ## C8 — registration/dispatch round-trip -/

/-- A provider session for tool `fetch price` on server `priceserver`,
answering every call with one text item. -/
def priceServerFn : String → List (String × ArgVal) → Except GoErr (List String) :=
  fun _ _ => .ok ["price is 42"]

/-- The orchestrator state after `Initialize` registered the built-in
tool and then server `priceserver` exposing tool `fetch price`. -/
def env8 : BridgeEnv where
  toolMap := registerServerTools "priceserver" ["fetch price"]
    [("query_database", "query_database")]
  servers := [("priceserver", priceServerFn)]
  schemas := []
  engine := fun _ => .error (.simple "unused")

/-- C8: registering tool `fetch price` discovered from provider
`priceserver` creates the registry entry `fetch_price ↦
priceserver/fetch price`, and dispatching a call to `fetch_price`
resolves back to exactly the provider `priceserver` with native tool
name `fetch price` — visible both in `resolveServerTool` and in the
provider invocation actually performed by `handleToolCalls`. -/
theorem register_dispatch_roundtrip :
    goLookup env8.toolMap "fetch_price" = some "priceserver/fetch price"
    ∧ resolveServerTool "priceserver/fetch price" = .ok ("priceserver", "fetch price")
    ∧ handleToolCalls env8 [⟨"call-1", "fetch_price", []⟩]
        = (.ok [⟨"call-1", "price is 42"⟩], [⟨"priceserver", "fetch price", []⟩]) :=
  ⟨rfl, rfl, rfl⟩

/-! ## C1 — line classification in the background reader -/

/-- A well-formed JSON-RPC error response: no `method`, no `result`,
only an `error` payload. -/
def errorOnlyMsg : List (String × JsonVal) :=
  [("jsonrpc", .str "2.0"), ("id", .num 1),
   ("error", .obj [("code", .num (-32600)), ("message", .str "bad request")])]

/-- C1 counterexample: a parsed message carrying an error payload (and
no result) is silently discarded by `readResponses`, not delivered to
the waiting caller as the claim states. -/
theorem errorResponse_discarded :
    (goLookup errorOnlyMsg "error").isSome = true
    ∧ processLine (.json errorOnlyMsg) = .discard
    ∧ processLine (.json errorOnlyMsg) ≠ .deliver := by
  refine ⟨rfl, rfl, by decide⟩

/-- C1 amended: a line that does not parse as JSON is silently
discarded; a parsed message whose `method` field is the string
`"notify"` is treated as a notification (at most logged) and never
delivered; any other parsed message is delivered to the single waiting
caller exactly when it carries a `result` payload — in particular a
message with only an `error` payload, or with a non-`"notify"` method
and no result, is silently discarded. -/
theorem readResponses_classification :
    processLine .notJson = .discard
    ∧ (∀ fields, goLookup fields "method" = some (.str "notify") →
        processLine (.json fields) = .notificationSkip)
    ∧ (∀ fields r, goLookup fields "method" = none →
        goLookup fields "result" = some r →
        processLine (.json fields) = .deliver)
    ∧ (∀ fields m r, m ≠ "notify" →
        goLookup fields "method" = some (.str m) →
        goLookup fields "result" = some r →
        processLine (.json fields) = .deliver)
    ∧ (∀ fields, goLookup fields "method" = none →
        goLookup fields "result" = none →
        processLine (.json fields) = .discard)
    ∧ (∀ fields m, m ≠ "notify" →
        goLookup fields "method" = some (.str m) →
        goLookup fields "result" = none →
        processLine (.json fields) = .discard) := by
  refine ⟨rfl, ?_, ?_, ?_, ?_, ?_⟩
  · intro fields hm
    simp [processLine, hm]
  · intro fields r hm hr
    simp [processLine, hm, resultCheck, hr]
  · intro fields m r hne hm hr
    simp [processLine, hm, hne, resultCheck, hr]
  · intro fields hm hr
    simp [processLine, hm, resultCheck, hr]
  · intro fields m hne hm hr
    simp [processLine, hm, hne, resultCheck, hr]

/-- C1 amended witness: the classification evaluated on concrete lines —
a notification, a plain result response, a response that carries both a
method and a result, and two method-or-nothing messages that are dropped. -/
theorem readResponses_classification_witness :
    processLine (.json [("method", .str "notify"), ("params", .obj [])]) = .notificationSkip
    ∧ processLine (.json [("id", .num 2), ("result", .obj [])]) = .deliver
    ∧ processLine (.json [("method", .str "progress"), ("result", .str "ok")]) = .deliver
    ∧ processLine (.json [("id", .num 3)]) = .discard
    ∧ processLine (.json [("method", .str "progress")]) = .discard := by
  obtain ⟨_, h2, h3, h4, h5, h6⟩ := readResponses_classification
  exact ⟨h2 _ rfl, h3 _ _ rfl rfl, h4 _ _ _ (by decide) rfl rfl, h5 _ rfl rfl,
    h6 _ _ (by decide) rfl rfl⟩

/-! ## C5 — the built-in query tool on `SELECT 1` -/

/-- The tables of the example database (example/create-example-db.go
creates `users` and `orders`), as loaded into `DatabaseTool.schemas`. -/
def exampleSchemas : List String := ["users", "orders"]

/-- Modelled from the spec: the external SQLite engine's answer to
`SELECT 1` — a one-row, one-column result set whose column is named `1`
and whose single value is the integer 1. -/
def select1Engine : String → Except GoErr (List String × List (List DBVal)) :=
  fun _ => .ok (["1"], [[.int 1]])

/-- The model's tool call naming the built-in query tool with the
argument mapping `query ↦ SELECT 1`. -/
def select1Call : ToolCall :=
  ⟨"call-1", "query_database", [("query", .str "SELECT 1")]⟩

/-- C5 counterexample: dispatching the built-in query tool on
`SELECT 1` does not succeed — `validateQuery` rejects the query because
no configured table name occurs in `select 1`, so `handleDatabaseTool`
returns an error and no ToolCallResult is produced, even though the
engine itself would answer with a one-row, one-column result set. -/
theorem select1_dispatch_fails :
    handleDatabaseTool exampleSchemas select1Engine select1Call
      = .error (.wrapped "database query failed"
          (.wrapped "invalid query" (.simple "query must reference a valid table")))
    ∧ select1Engine "SELECT 1" = .ok (["1"], [[.int 1]]) :=
  ⟨rfl, rfl⟩

/-- C5 amended: a tool call naming the built-in query tool with
arguments `query ↦ SELECT 1` is rejected during validation —
`validateQuery` accepts a query only if some configured table name
occurs in its lowercased text, and neither `users` nor `orders` occurs
in `select 1` — so the dispatch fails with the error `database query
failed: invalid query: query must reference a valid table`, whatever
the SQL engine would have answered. -/
theorem select1_rejected_for_any_engine :
    ∀ engine, handleDatabaseTool exampleSchemas engine select1Call
      = .error (.wrapped "database query failed"
          (.wrapped "invalid query" (.simple "query must reference a valid table"))) := by
  intro engine
  rfl

/-- C5 amended witness: the rejection evaluated at a concrete engine. -/
theorem select1_rejected_witness :
    handleDatabaseTool exampleSchemas (fun _ => .ok ([], [])) select1Call
      = .error (.wrapped "database query failed"
          (.wrapped "invalid query" (.simple "query must reference a valid table"))) :=
  select1_rejected_for_any_engine (fun _ => .ok ([], []))

/-! ## C6 — session teardown short-circuits -/

/-- A teardown environment where closing stdin fails and killing the
process would also fail; closing stdout and waiting would succeed. -/
def closeEnvBad : CloseEnv :=
  ⟨some (.simple "stdin close failed"), none, some (.simple "kill failed"), none⟩

/-- C6 counterexample: when closing stdin fails, `MCPClient.Close`
returns that single wrapped error immediately — stdout is never closed
and the process is neither killed nor waited for, so errors are not
collected and later steps are not attempted. -/
theorem close_stdin_failure_short_circuits :
    closeClient closeEnvBad
      = (.error (.wrapped "failed to close stdin" (.simple "stdin close failed")),
         [.closeStdin])
    ∧ CloseStep.closeStdout ∉ (closeClient closeEnvBad).2
    ∧ CloseStep.killProcess ∉ (closeClient closeEnvBad).2
    ∧ CloseStep.waitProcess ∉ (closeClient closeEnvBad).2 := by
  refine ⟨rfl, by decide, by decide, by decide⟩

/-- C6 amended: `close(session)` performs the steps close stdin, close
stdout, kill process, wait for exit in order, but short-circuits — the
first failing step's error is returned alone (wrapped with a step
message) and no later step is attempted; all four steps run only when
every one of them succeeds. -/
theorem closeClient_steps (env : CloseEnv) :
    (env.stdinClose = none → env.stdoutClose = none → env.kill = none → env.wait = none →
      closeClient env = (.ok (), [.closeStdin, .closeStdout, .killProcess, .waitProcess]))
    ∧ (∀ e, env.stdinClose = some e →
      closeClient env = (.error (.wrapped "failed to close stdin" e), [.closeStdin]))
    ∧ (∀ e, env.stdinClose = none → env.stdoutClose = some e →
      closeClient env
        = (.error (.wrapped "failed to close stdout" e), [.closeStdin, .closeStdout]))
    ∧ (∀ e, env.stdinClose = none → env.stdoutClose = none → env.kill = some e →
      closeClient env
        = (.error (.wrapped "failed to kill process" e),
           [.closeStdin, .closeStdout, .killProcess]))
    ∧ (∀ e, env.stdinClose = none → env.stdoutClose = none → env.kill = none →
        env.wait = some e →
      closeClient env
        = (.error (.wrapped "failed to wait for process" e),
           [.closeStdin, .closeStdout, .killProcess, .waitProcess])) := by
  refine ⟨?_, ?_, ?_, ?_, ?_⟩ <;> intros <;> simp [closeClient, *]

/-- C6 amended witness: the all-success case and a stdout failure case,
evaluated at concrete environments. -/
theorem closeClient_steps_witness :
    closeClient ⟨none, none, none, none⟩
      = (.ok (), [.closeStdin, .closeStdout, .killProcess, .waitProcess])
    ∧ closeClient ⟨none, some (.simple "stdout oops"), none, none⟩
      = (.error (.wrapped "failed to close stdout" (.simple "stdout oops")),
         [.closeStdin, .closeStdout]) :=
  ⟨(closeClient_steps ⟨none, none, none, none⟩).1 rfl rfl rfl rfl,
   (closeClient_steps ⟨none, some (.simple "stdout oops"), none, none⟩).2.2.1
     (.simple "stdout oops") rfl rfl⟩

/-! ## C4 — retry policy of `ProcessMessage` -/

/-- The three-iteration retry loop, unfolded once per attempt: attempt 0
with backoff 1s, attempt 1 with backoff 2s, attempt 2 with backoff 4s. -/
theorem retryLoop3 (gen : Nat → Except GoErr LLMResponse) :
    retryLoop gen 3 0 1 []
      = (match gen 0 with
         | .ok r => .success r []
         | .error e0 =>
           if isRetryableError e0 then
             match gen 1 with
             | .ok r => .success r [1]
             | .error e1 =>
               if isRetryableError e1 then
                 match gen 2 with
                 | .ok r => .success r [1, 2]
                 | .error e2 =>
                   if isRetryableError e2 then .exhausted e2 [1, 2, 4]
                   else .nonRetryable e2 [1, 2]
               else .nonRetryable e1 [1]
           else .nonRetryable e0 []) := by
  rcases h0 : gen 0 with e0 | r0
  · by_cases hr0 : isRetryableError e0
    · rcases h1 : gen 1 with e1 | r1
      · by_cases hr1 : isRetryableError e1
        · rcases h2 : gen 2 with e2 | r2
          · by_cases hr2 : isRetryableError e2 <;>
              simp [retryLoop, h0, h1, h2, hr0, hr1, hr2]
          · simp [retryLoop, h0, h1, h2, hr0, hr1]
        · simp [retryLoop, h0, h1, hr0, hr1]
      · simp [retryLoop, h0, h1, hr0]
    · simp [retryLoop, h0, hr0]
  · simp [retryLoop, h0]

/-- C4: model generation is attempted at most 3 times with backoff
sleeps doubling from 1 second, retrying only transient network/timeout
errors: two transient failures then a success return the successful
result after exactly the two sleeps 1s and 2s; a non-transient failure
is returned immediately with zero sleeps; three transient failures end
with the last error wrapped as a BridgeError. -/
theorem processMessage_retry_policy :
    (∀ gen handle e0 e1 resp, gen 0 = .error e0 → isRetryableError e0 = true →
      gen 1 = .error e1 → isRetryableError e1 = true →
      gen 2 = .ok resp → resp.toolCalls = [] →
      processMessage gen handle = ⟨.ok (cleanContent resp.content), [1, 2]⟩)
    ∧ (∀ gen handle e, gen 0 = .error e → isRetryableError e = false →
      processMessage gen handle = ⟨.error e, []⟩)
    ∧ (∀ gen handle e0 e1 e2, gen 0 = .error e0 → isRetryableError e0 = true →
      gen 1 = .error e1 → isRetryableError e1 = true →
      gen 2 = .error e2 → isRetryableError e2 = true →
      processMessage gen handle
        = ⟨.error (.bridge "process_message" "failed after retry attempts" e2),
           [1, 2, 4]⟩) := by
  refine ⟨?_, ?_, ?_⟩
  · intro gen handle e0 e1 resp h0 hr0 h1 hr1 h2 htc
    have hret : retryLoop gen 3 0 1 [] = .success resp [1, 2] := by
      rw [retryLoop3, h0, h1, h2]
      simp [hr0, hr1]
    simp [processMessage, hret, htc]
  · intro gen handle e h0 hr0
    have hret : retryLoop gen 3 0 1 [] = .nonRetryable e [] := by
      rw [retryLoop3, h0]
      simp [hr0]
    simp [processMessage, hret]
  · intro gen handle e0 e1 e2 h0 hr0 h1 hr1 h2 hr2
    have hret : retryLoop gen 3 0 1 [] = .exhausted e2 [1, 2, 4] := by
      rw [retryLoop3, h0, h1, h2]
      simp [hr0, hr1, hr2]
    simp [processMessage, hret]

/-- A generation function failing twice with a timeout, then answering. -/
def genTwoTimeouts : Nat → Except GoErr LLMResponse :=
  fun n => match n with
  | 0 => .error (.wrapped "failed to send request" (.net true))
  | 1 => .error (.net true)
  | _ => .ok ⟨"done", []⟩

/-- A generation function failing with a non-transient endpoint error. -/
def genBadRequest : Nat → Except GoErr LLMResponse :=
  fun _ => .error (.simple "unexpected status code: 500")

/-- A generation function that always times out. -/
def genAlwaysTimeout : Nat → Except GoErr LLMResponse :=
  fun _ => .error (.net true)

/-- A dispatcher that is never consulted in the retry scenarios. -/
def handleNone : List ToolCall → Except GoErr (List ToolResult) :=
  fun _ => .ok []

/-- C4 witness: the three retry scenarios evaluated on concrete
generation functions. -/
theorem processMessage_retry_policy_witness :
    processMessage genTwoTimeouts handleNone = ⟨.ok "done", [1, 2]⟩
    ∧ processMessage genBadRequest handleNone
        = ⟨.error (.simple "unexpected status code: 500"), []⟩
    ∧ processMessage genAlwaysTimeout handleNone
        = ⟨.error (.bridge "process_message" "failed after retry attempts" (.net true)),
           [1, 2, 4]⟩ := by
  obtain ⟨hA, hB, hC⟩ := processMessage_retry_policy
  refine ⟨?_, ?_, ?_⟩
  · have := hA genTwoTimeouts handleNone
      (.wrapped "failed to send request" (.net true)) (.net true) ⟨"done", []⟩
      rfl rfl rfl rfl rfl rfl
    exact this
  · exact hB genBadRequest handleNone (.simple "unexpected status code: 500") rfl rfl
  · exact hC genAlwaysTimeout handleNone (.net true) (.net true) (.net true)
      rfl rfl rfl rfl rfl rfl

/-! ## C3 — what happens after a response with tool calls -/

/-- A model response with non-empty content that also requests a tool
call. -/
def gen3 : Nat → Except GoErr LLMResponse :=
  fun _ => .ok ⟨"hello", [⟨"call-7", "some_tool", []⟩]⟩

/-- A dispatcher answering that tool call with output `TOOLOUT`. -/
def handle3 : List ToolCall → Except GoErr (List ToolResult) :=
  fun _ => .ok [⟨"call-7", "TOOLOUT"⟩]

/-- C3 counterexample: the model's response carries a tool call and
non-empty plain content `hello`; the claimed generate→dispatch→continue
cycle would hand the tool result back to the model and use the model's
own content, with tool output only as a fallback for empty content —
but `ProcessMessage` returns the raw tool output `TOOLOUT` directly,
performs no continuation, and discards the model's content. -/
theorem processMessage_no_continuation :
    processMessage gen3 handle3 = ⟨.ok "TOOLOUT", []⟩
    ∧ "TOOLOUT" ≠ "hello" := by
  refine ⟨rfl, by decide⟩

/-- C3 amended: when a generation succeeds, `ProcessMessage` dispatches
any tool calls exactly once and immediately returns the first tool
result's output as the visible response — the results are never handed
back to the model adapter and no further generation occurs; only when
the response carries no tool calls is the model's content returned,
with chat tags stripped and trimmed. -/
theorem processMessage_single_dispatch :
    ∀ gen handle resp, gen 0 = .ok resp →
      (∀ r rs, handle resp.toolCalls = .ok (r :: rs) → resp.toolCalls ≠ [] →
        processMessage gen handle = ⟨.ok r.output, []⟩)
      ∧ (resp.toolCalls = [] →
        processMessage gen handle = ⟨.ok (cleanContent resp.content), []⟩) := by
  intro gen handle resp h0
  have hret : retryLoop gen 3 0 1 [] = .success resp [] := by
    rw [retryLoop3, h0]
  constructor
  · intro r rs hh htc
    cases hcalls : resp.toolCalls with
    | nil => exact absurd hcalls htc
    | cons c cs =>
      rw [hcalls] at hh
      simp [processMessage, hret, hcalls, hh]
  · intro htc
    simp [processMessage, hret, htc]

/-- C3 amended witness: the two branches evaluated on concrete model
responses — a tool-calling response whose dispatch output is returned
directly, and a plain response whose content is returned cleaned. -/
theorem processMessage_single_dispatch_witness :
    processMessage (fun _ => .ok ⟨"ignored", [⟨"c2", "t", []⟩]⟩)
        (fun _ => .ok [⟨"c2", "OUT1"⟩]) = ⟨.ok "OUT1", []⟩
    ∧ processMessage (fun _ => .ok ⟨" plain answer ", []⟩) handleNone
        = ⟨.ok "plain answer", []⟩ := by
  constructor
  · exact (processMessage_single_dispatch (fun _ => .ok ⟨"ignored", [⟨"c2", "t", []⟩]⟩)
      (fun _ => .ok [⟨"c2", "OUT1"⟩]) ⟨"ignored", [⟨"c2", "t", []⟩]⟩ rfl).1
      ⟨"c2", "OUT1"⟩ [] rfl (by decide)
  · have := (processMessage_single_dispatch (fun _ => .ok ⟨" plain answer ", []⟩)
      handleNone ⟨" plain answer ", []⟩ rfl).2 rfl
    exact this

/-! ## C7 — unknown tools fail fast -/

theorem dispatchToolCall_unknown (env : BridgeEnv) (call : ToolCall)
    (h : goLookup env.toolMap call.name = none) :
    dispatchToolCall env call
      = (.error (.simple ("unknown tool: " ++ call.name)), []) := by
  simp [dispatchToolCall, h]

theorem handleToolCallsAux_unknown_extend (env : BridgeEnv) (bad : ToolCall)
    (post : List ToolCall) (hbad : goLookup env.toolMap bad.name = none) :
    ∀ pre results trace res tr,
      handleToolCallsAux env pre results trace = (.ok res, tr) →
      handleToolCallsAux env (pre ++ bad :: post) results trace
        = (.error (.simple ("unknown tool: " ++ bad.name)), tr) := by
  intro pre
  induction pre with
  | nil =>
    intro results trace res tr h
    simp only [handleToolCallsAux] at h
    obtain ⟨-, h2⟩ := Prod.mk.injEq .. ▸ h
    subst h2
    simp [handleToolCallsAux, dispatchToolCall_unknown env bad hbad]
  | cons c cs ih =>
    intro results trace res tr h
    simp only [List.cons_append, handleToolCallsAux] at h ⊢
    rcases hd : dispatchToolCall env c with ⟨dres, pcs⟩
    rw [hd] at h
    cases dres with
    | error e => simp at h
    | ok r => exact ih _ _ _ _ h

/-- C7: in every list of tool-call requests dispatched by the
orchestrator, a request whose sanitized tool name is not in the
registry fails the whole dispatch with a descriptive unknown-tool
error, and neither it nor any later request in the list causes a
provider call: the provider-call trace is exactly that of the
preceding, successfully dispatched requests. -/
theorem handleToolCalls_unknown_tool_fail_fast (env : BridgeEnv)
    (pre : List ToolCall) (bad : ToolCall) (post : List ToolCall)
    (res : List ToolResult) (tr : List ProviderCall)
    (hpre : handleToolCalls env pre = (.ok res, tr))
    (hbad : goLookup env.toolMap bad.name = none) :
    handleToolCalls env (pre ++ bad :: post)
      = (.error (.simple ("unknown tool: " ++ bad.name)), tr) :=
  handleToolCallsAux_unknown_extend env bad post hbad pre [] [] res tr hpre

/-- An orchestrator with the built-in tool and one provider session
that would answer any call. -/
def env7 : BridgeEnv where
  toolMap := registerServerTools "priceserver" ["fetch price"]
    [("query_database", "query_database")]
  servers := [("priceserver", priceServerFn)]
  schemas := ["users", "orders"]
  engine := fun _ => .error (.simple "no db")

/-- C7 witness: dispatching a list starting with an unregistered tool
name fails with the unknown-tool error and performs no provider call,
not even for the later, registered request. -/
theorem handleToolCalls_unknown_tool_witness :
    handleToolCalls env7
        [⟨"c9", "nonexistent_tool", []⟩, ⟨"c10", "fetch_price", []⟩]
      = (.error (.simple "unknown tool: nonexistent_tool"), []) :=
  handleToolCalls_unknown_tool_fail_fast env7 [] ⟨"c9", "nonexistent_tool", []⟩
    [⟨"c10", "fetch_price", []⟩] [] [] rfl rfl

/-! ## C10 — NULL columns omitted, byte slices stringified -/

theorem goMapInsert_notMem {α : Type} (m : List (String × α)) (k : String) (v : α)
    (hk : k ∉ m.map Prod.fst) : goMapInsert m k v = m ++ [(k, v)] := by
  induction m with
  | nil => simp [goMapInsert]
  | cons p rest ih =>
    obtain ⟨k', v'⟩ := p
    simp only [List.map_cons, List.mem_cons] at hk
    push_neg at hk
    have h1 : ¬ k' = k := fun h => hk.1 h.symm
    simp [goMapInsert, h1, ih hk.2]

theorem goLookup_notMem {α : Type} (m : List (String × α)) (k : String)
    (hk : k ∉ m.map Prod.fst) : goLookup m k = none := by
  induction m with
  | nil => rfl
  | cons p rest ih =>
    obtain ⟨k', v'⟩ := p
    simp only [List.map_cons, List.mem_cons] at hk
    push_neg at hk
    have h1 : ¬ k' = k := fun h => hk.1 h.symm
    simp [goLookup, h1, ih hk.2]

theorem goLookup_mem_nodup {α : Type} (m : List (String × α)) (k : String) (v : α)
    (hnd : (m.map Prod.fst).Nodup) (hm : (k, v) ∈ m) : goLookup m k = some v := by
  induction m with
  | nil => cases hm
  | cons p rest ih =>
    obtain ⟨k', v'⟩ := p
    simp only [List.map_cons, List.nodup_cons] at hnd
    rcases List.mem_cons.mp hm with heq | htail
    · obtain ⟨h1, h2⟩ := Prod.mk.injEq .. ▸ heq.symm
      simp [goLookup, h1, h2]
    · have hne : ¬ k' = k := by
        intro h
        subst h
        exact hnd.1 (List.mem_map.mpr ⟨(k', v), htail, rfl⟩)
      simp [goLookup, hne, ih hnd.2 htail]

theorem keys_unique {α : Type} (l : List (String × α))
    (hnd : (l.map Prod.fst).Nodup) :
    ∀ a b c, (a, b) ∈ l → (a, c) ∈ l → b = c := by
  induction l with
  | nil => intro a b c hb; cases hb
  | cons p rest ih =>
    intro a b c hb hc
    obtain ⟨k', v'⟩ := p
    simp only [List.map_cons, List.nodup_cons] at hnd
    rcases List.mem_cons.mp hb with hbeq | hbtail <;>
      rcases List.mem_cons.mp hc with hceq | hctail
    · obtain ⟨-, h2⟩ := Prod.mk.injEq .. ▸ hbeq.symm
      obtain ⟨-, h4⟩ := Prod.mk.injEq .. ▸ hceq.symm
      rw [← h2, ← h4]
    · obtain ⟨h1, -⟩ := Prod.mk.injEq .. ▸ hbeq.symm
      exact absurd (List.mem_map.mpr ⟨(a, c), hctail, h1.symm⟩) hnd.1
    · obtain ⟨h1, -⟩ := Prod.mk.injEq .. ▸ hceq.symm
      exact absurd (List.mem_map.mpr ⟨(a, b), hbtail, h1.symm⟩) hnd.1
    · exact ih hnd.2 a b c hbtail hctail

theorem scanRowAux_eq :
    ∀ (pairs : List (String × DBVal)) (acc : List (String × RowVal)),
      (pairs.map Prod.fst).Nodup →
      (∀ k, k ∈ acc.map Prod.fst → k ∉ pairs.map Prod.fst) →
      scanRowAux acc pairs
        = acc ++ (pairs.filter (fun p => decide (p.2 ≠ DBVal.null))).map
            (fun p => (p.1, convDBVal p.2)) := by
  intro pairs
  induction pairs with
  | nil => intro acc _ _; simp [scanRowAux]
  | cons p rest ih =>
    intro acc hnd hdisj
    obtain ⟨col, v⟩ := p
    simp only [List.map_cons, List.nodup_cons] at hnd
    by_cases hv : v = DBVal.null
    · subst hv
      have hdisj' : ∀ k, k ∈ acc.map Prod.fst → k ∉ rest.map Prod.fst := by
        intro k hk
        have := hdisj k hk
        simp only [List.map_cons, List.mem_cons] at this
        push_neg at this
        exact this.2
      simp [scanRowAux, ih acc hnd.2 hdisj']
    · have hcolacc : col ∉ acc.map Prod.fst := by
        intro hmem
        have := hdisj col hmem
        simp at this
      have hins := goMapInsert_notMem acc col (convDBVal v) hcolacc
      have hdisj' : ∀ k, k ∈ (acc ++ [(col, convDBVal v)]).map Prod.fst →
          k ∉ rest.map Prod.fst := by
        intro k hk
        simp only [List.map_append, List.map_cons, List.map_nil, List.mem_append,
          List.mem_cons, List.not_mem_nil, or_false] at hk
        rcases hk with hka | hkc
        · have := hdisj k hka
          simp only [List.map_cons, List.mem_cons] at this
          push_neg at this
          exact this.2
        · subst hkc
          exact hnd.1
      have := ih (acc ++ [(col, convDBVal v)]) hnd.2 hdisj'
      simp only [scanRowAux, if_neg hv, hins, this, List.append_assoc]
      simp [List.filter_cons, hv]

theorem scanRow_eq (pairs : List (String × DBVal))
    (hnd : (pairs.map Prod.fst).Nodup) :
    scanRow pairs
      = (pairs.filter (fun p => decide (p.2 ≠ DBVal.null))).map
          (fun p => (p.1, convDBVal p.2)) := by
  have := scanRowAux_eq pairs [] hnd (by simp)
  simpa [scanRow] using this

/-- C10: in every scanned result row (over columns without duplicate
names), a column whose value is SQL NULL is absent from the row map,
and a byte-slice value is stored as the string of its bytes (text and
integer values are stored unchanged); hence the key set of a row is
exactly its non-NULL columns and may differ from row to row. -/
theorem scanRow_null_omitted_bytes_stringified
    (pairs : List (String × DBVal)) (hnd : (pairs.map Prod.fst).Nodup)
    (col : String) (v : DBVal) (hmem : (col, v) ∈ pairs) :
    (v = .null → goLookup (scanRow pairs) col = none)
    ∧ (∀ b, v = .bytes b → goLookup (scanRow pairs) col = some (.str b))
    ∧ (∀ s, v = .text s → goLookup (scanRow pairs) col = some (.str s))
    ∧ (∀ n, v = .int n → goLookup (scanRow pairs) col = some (.int n)) := by
  have heq := scanRow_eq pairs hnd
  have hkeys : (scanRow pairs).map Prod.fst
      = (pairs.filter (fun p => decide (p.2 ≠ DBVal.null))).map Prod.fst := by
    rw [heq, List.map_map]
    rfl
  have hkeysnd : ((scanRow pairs).map Prod.fst).Nodup := by
    rw [hkeys]
    exact List.Nodup.sublist ((List.filter_sublist _).map Prod.fst) hnd
  have hpos : ∀ w, v = w → w ≠ .null → goLookup (scanRow pairs) col = some (convDBVal w) := by
    intro w hw hwn
    subst hw
    apply goLookup_mem_nodup _ _ _ hkeysnd
    rw [heq]
    exact List.mem_map.mpr ⟨(col, v), List.mem_filter.mpr ⟨hmem, by simpa using hwn⟩, rfl⟩
  refine ⟨?_, ?_, ?_, ?_⟩
  · intro hv
    subst hv
    apply goLookup_notMem
    rw [hkeys]
    intro hcol
    obtain ⟨p, hpf, hpcol⟩ := List.mem_map.mp hcol
    have hpmem := (List.mem_filter.mp hpf).1
    have hpnn : p.2 ≠ DBVal.null := by simpa using (List.mem_filter.mp hpf).2
    have : p.2 = DBVal.null := by
      have hp : (col, p.2) ∈ pairs := by
        have : p = (col, p.2) := by
          rw [← hpcol]
        rw [← this]
        exact hpmem
      exact keys_unique pairs hnd col p.2 DBVal.null hp hmem
    exact hpnn this
  · intro b hv
    exact hpos (.bytes b) hv (by simp)
  · intro s hv
    exact hpos (.text s) hv (by simp)
  · intro n hv
    exact hpos (.int n) hv (by simp)

/-- C10 witness: a concrete row with a NULL column, a byte-slice column
and an integer column — the NULL key is absent, the bytes become a
string, and two rows of one result set have different key sets. -/
theorem scanRow_witness :
    goLookup (scanRow [("id", .int 7), ("note", .null), ("blob", .bytes "xy")]) "note" = none
    ∧ goLookup (scanRow [("id", .int 7), ("note", .null), ("blob", .bytes "xy")]) "blob"
        = some (.str "xy")
    ∧ goLookup (scanRow [("id", .int 7), ("note", .null), ("blob", .bytes "xy")]) "id"
        = some (.int 7) := by
  refine ⟨?_, ?_, ?_⟩
  · exact (scanRow_null_omitted_bytes_stringified
      [("id", .int 7), ("note", .null), ("blob", .bytes "xy")] (by decide)
      "note" .null (by decide)).1 rfl
  · exact (scanRow_null_omitted_bytes_stringified
      [("id", .int 7), ("note", .null), ("blob", .bytes "xy")] (by decide)
      "blob" (.bytes "xy") (by decide)).2.1 "xy" rfl
  · exact (scanRow_null_omitted_bytes_stringified
      [("id", .int 7), ("note", .null), ("blob", .bytes "xy")] (by decide)
      "id" (.int 7) (by decide)).2.2.2 7 rfl

/-! ## C2 — request/response serialization on a session -/

/-- An interleaving of two concurrent callers permitted by the code's
synchronization: both send (the mutex serializes only the two writes),
then the reader delivers response 0, which caller 1 receives. -/
def raceTrace : List CEvent :=
  [.lock0, .write0, .unlock0, .lock1, .write1, .unlock1,
   .deliver, .recv1, .deliver, .recv0]

/-- C2 counterexample: under the code's locking (the mutex guards only
the write inside `sendRequest`; the receive on `respChan` is outside
it), two concurrent callers can both have outstanding requests, and in
the exhibited valid interleaving caller 1 — which wrote request 1 —
receives response 0, while caller 0 receives response 1: the response
to call k is delivered to the waiter of call k+1. -/
theorem concurrent_callers_misdelivery :
    (crun raceTrace cInit).map
        (fun s => (s.t0.reqIdx, s.t0.recvIdx, s.t1.reqIdx, s.t1.recvIdx))
      = some (some 0, some 1, some 1, some 0) := by
  decide

def mutexInv (s : CState) : Prop :=
  (inSend s.t0 → s.mutexOwner = some false) ∧ (inSend s.t1 → s.mutexOwner = some true)

theorem cstep_preserves_inv (s s' : CState) (e : CEvent)
    (hinv : mutexInv s) (hstep : cstep s e = some s') : mutexInv s' := by
  obtain ⟨h0, h1⟩ := hinv
  cases e <;> simp only [cstep] at hstep
  case lock0 =>
    by_cases hc : s.t0.phase = .idle ∧ s.mutexOwner = none
    · rw [if_pos hc] at hstep
      cases hstep
      refine ⟨fun _ => rfl, fun hs => ?_⟩
      exact absurd ((h1 hs).symm.trans hc.2) (by simp)
    · rw [if_neg hc] at hstep; cases hstep
  case lock1 =>
    by_cases hc : s.t1.phase = .idle ∧ s.mutexOwner = none
    · rw [if_pos hc] at hstep
      cases hstep
      refine ⟨fun hs => ?_, fun _ => rfl⟩
      exact absurd ((h0 hs).symm.trans hc.2) (by simp)
    · rw [if_neg hc] at hstep; cases hstep
  case write0 =>
    by_cases hc : s.t0.phase = .locked ∧ s.mutexOwner = some false
    · rw [if_pos hc] at hstep
      cases hstep
      exact ⟨fun _ => hc.2, fun hs => h1 hs⟩
    · rw [if_neg hc] at hstep; cases hstep
  case write1 =>
    by_cases hc : s.t1.phase = .locked ∧ s.mutexOwner = some true
    · rw [if_pos hc] at hstep
      cases hstep
      exact ⟨fun hs => h0 hs, fun _ => hc.2⟩
    · rw [if_neg hc] at hstep; cases hstep
  case unlock0 =>
    by_cases hc : s.t0.phase = .written ∧ s.mutexOwner = some false
    · rw [if_pos hc] at hstep
      cases hstep
      refine ⟨fun hs => by cases hs <;> simp_all [inSend], fun hs => ?_⟩
      exact absurd (hc.2.symm.trans (h1 hs)) (by simp)
    · rw [if_neg hc] at hstep; cases hstep
  case unlock1 =>
    by_cases hc : s.t1.phase = .written ∧ s.mutexOwner = some true
    · rw [if_pos hc] at hstep
      cases hstep
      refine ⟨fun hs => ?_, fun hs => by cases hs <;> simp_all [inSend]⟩
      exact absurd (hc.2.symm.trans (h0 hs)) (by simp)
    · rw [if_neg hc] at hstep; cases hstep
  case deliver =>
    by_cases hc : s.delivered < s.written ∧ s.slot = none
    · rw [if_pos hc] at hstep
      cases hstep
      exact ⟨h0, h1⟩
    · rw [if_neg hc] at hstep; cases hstep
  case recv0 =>
    rcases hsl : s.slot with - | r
    · simp only [hsl] at hstep; cases hstep
    · simp only [hsl] at hstep
      by_cases hc : s.t0.phase = .awaiting
      · rw [if_pos hc] at hstep
        cases hstep
        exact ⟨fun hs => by cases hs <;> simp_all [inSend], fun hs => h1 hs⟩
      · rw [if_neg hc] at hstep; cases hstep
  case recv1 =>
    rcases hsl : s.slot with - | r
    · simp only [hsl] at hstep; cases hstep
    · simp only [hsl] at hstep
      by_cases hc : s.t1.phase = .awaiting
      · rw [if_pos hc] at hstep
        cases hstep
        exact ⟨fun hs => h0 hs, fun hs => by cases hs <;> simp_all [inSend]⟩
      · rw [if_neg hc] at hstep; cases hstep

theorem crun_preserves_inv :
    ∀ (evs : List CEvent) (s s' : CState),
      mutexInv s → crun evs s = some s' → mutexInv s' := by
  intro evs
  induction evs with
  | nil =>
    intro s s' hinv h
    simp only [crun] at h
    cases h
    exact hinv
  | cons e es ih =>
    intro s s' hinv h
    simp only [crun] at h
    cases hstep : cstep s e with
    | none => rw [hstep] at h; cases h
    | some s1 =>
      rw [hstep] at h
      exact ih s1 s' (cstep_preserves_inv s s1 e hinv hstep) h

/-- The schedule in which the two calls are issued sequentially: the
second caller sends only after the first has consumed its response. -/
def seqTrace : List CEvent :=
  [.lock0, .write0, .unlock0, .deliver, .recv0,
   .lock1, .write1, .unlock1, .deliver, .recv1]

/-- C2 amended: the session mutex serializes only the sending of a
request — in every reachable state at most one caller is inside
`sendRequest`'s critical section — but awaiting the response is outside
the lock, so serialization of whole request/response exchanges is not
enforced against concurrent callers (see the counterexample); when the
two calls are issued sequentially, each caller does receive the
response to its own request. -/
theorem session_send_serialized :
    (∀ evs s', crun evs cInit = some s' → ¬ (inSend s'.t0 ∧ inSend s'.t1))
    ∧ (crun seqTrace cInit).map
        (fun s => (s.t0.reqIdx, s.t0.recvIdx, s.t1.reqIdx, s.t1.recvIdx))
      = some (some 0, some 0, some 1, some 1) := by
  constructor
  · intro evs s' hrun ⟨hs0, hs1⟩
    have hinv0 : mutexInv cInit := by
      constructor <;> intro hs <;> cases hs <;> simp_all [cInit, inSend]
    obtain ⟨h0, h1⟩ := crun_preserves_inv evs cInit s' hinv0 hrun
    have := (h0 hs0).symm.trans (h1 hs1)
    simp at this
  · decide

/-- C2 amended witness: the mutual-exclusion part evaluated on the state
reached after caller 0 acquires the mutex. -/
theorem session_send_serialized_witness :
    ¬ (inSend (⟨⟨.locked, none, none⟩, ⟨.idle, none, none⟩,
          some false, none, 0, 0⟩ : CState).t0
       ∧ inSend (⟨⟨.locked, none, none⟩, ⟨.idle, none, none⟩,
          some false, none, 0, 0⟩ : CState).t1) :=
  session_send_serialized.1 [.lock0]
    ⟨⟨.locked, none, none⟩, ⟨.idle, none, none⟩, some false, none, 0, 0⟩
    (by decide)

end Gomcp
